import Mathlib

/-!
Verification of the rendering / viewport core of the kiro editor
(`src/screen.rs`), shallowly embedded in Lean.

Modelling conventions:
* Machine integers (`usize`) are `Nat`; Rust `usize` subtraction appears only
  where the source guards it, and is modelled by truncated `Nat` subtraction.
* `SystemTime` is a `Nat` of seconds; `duration_since` fails exactly when the
  earlier time is later than `now`, like Rust's `SystemTime::duration_since`.
* Everything written to an output sink (`Write`) is modelled as a list of
  `Out` items in emission order; consecutive literal bytes may be grouped in
  one `Out.text` item.  Terminal escape sequences keep their structure
  (`moveTo`, `clearLine`, ...) instead of raw bytes.
* A rendered character (an element of `Row::render_text()`) is a `Char`
  together with its display width `c.width_cjk().unwrap_or(1)`.
* Fallible functions return `Except SError _`.
-/

namespace Kiro

/-- Logical terminal colors (`term_color::Color`, not among the sources):
the tags used by `screen.rs` plus an abstract highlight palette. -/
inductive Color where
  | Reset
  | Invert
  | RedBG
  | Cyan
  | Hl (n : Nat)
deriving DecidableEq, Repr

/-- One character of a row's rendered text together with its display width
`c.width_cjk().unwrap_or(1)` (double-width glyphs have `w = 2`). -/
structure RChar where
  ch : Char
  w : Nat
deriving DecidableEq, Repr

/-- A text row, reduced to its rendered text (`Row::render_text()`,
`src/row.rs` is not among the sources; only the rendered characters and
their widths matter to `screen.rs`). -/
structure Row where
  render : List RChar
deriving DecidableEq, Repr

/-- Modelled from the spec: `Row::rx_from_cx` (`src/row.rs` is not among the
sources).  The spec says `render_x` is "the cursor's column position within
the *rendered* text of its row (after expanding tabs/wide glyphs)": the sum
of the display widths of the glyphs strictly before the cursor. -/
def Row.rx_from_cx (r : Row) (cx : Nat) : Nat :=
  ((r.render.take cx).map RChar.w).sum

/-- All glyph boundaries of a row's rendered text: the display-width sums of
its prefixes.  A column not in this list falls strictly inside the span of
some multi-column glyph. -/
def Row.boundaries (r : Row) : List Nat :=
  (List.range (r.render.length + 1)).map
    (fun k => ((r.render.take k).map RChar.w).sum)

/-- Items emitted to the terminal output sink. -/
inductive Out where
  | moveTo (row : Nat)
  | moveToRC (row col : Nat)
  | color (c : Color)
  | text (s : List Char)
  | clearLine
  | hideCursor
  | showCursor
deriving DecidableEq, Repr

/-- Mirror of `StatusMessageKind` from `screen.rs`. -/
inductive MsgKind where
  | Info
  | Error
deriving DecidableEq, Repr

/-- Mirror of `StatusMessage` from `screen.rs`: text, optional first-paint timestamp,
and kind. -/
structure StatusMessage where
  text : List Char
  timestamp : Option Nat
  kind : MsgKind
deriving DecidableEq, Repr

/-- Constructor `StatusMessage::new`: timestamp is unset at creation. -/
def StatusMessage.new (text : List Char) (kind : MsgKind) : StatusMessage :=
  { text := text, timestamp := none, kind := kind }

/-- The `StatusBar` collaborator (`src/status_bar.rs` is not among the
sources): externally supplied left/right fragments and a redraw flag. -/
structure StatusBar where
  left : List Char
  right : List Char
  redraw : Bool
deriving DecidableEq, Repr

/-- The `TextBuffer` collaborator, at the interface `screen.rs` consumes:
row list and cursor position (`rows()`, `cx()`, `cy()`). -/
structure TextBuffer where
  rows : List Row
  cx : Nat
  cy : Nat
deriving DecidableEq, Repr

/-- The `Highlighting` collaborator, at the interface `screen.rs` consumes:
per visible line, a sequence of per-character color tags (`hl.lines`),
assumed already extended by `Highlighting::update`. -/
structure Highlighting where
  lines : List (List Color)
deriving DecidableEq, Repr

/-- Error kinds reachable from the modelled code paths of `screen.rs`:
`Error::TooSmallWindow` and the `SystemTimeError` converted by `?` in
`should_redraw_message_bar`. -/
inductive SError where
  | TooSmallWindow (w h : Nat)
  | Clock
deriving DecidableEq, Repr

/-- The `Screen` state (`screen.rs`), without the output sink and the resize
watcher: the sink is modelled by returned `List Out`, and no claim concerns
`sigwinch`. -/
structure Screen where
  rx : Nat
  num_cols : Nat
  num_rows : Nat
  message : Option StatusMessage
  message_is_shown : Bool
  dirty_start : Option Nat
  cursor_moved : Bool
  rowoff : Nat
  coloff : Nat
deriving DecidableEq, Repr

/-- Mirror of `Screen::rows()`: effective text-viewport height — one extra row is
available while the message bar is not shown. -/
def Screen.rows (s : Screen) : Nat :=
  if s.message_is_shown then s.num_rows else s.num_rows + 1

/-- Mirror of `Screen::cols()`. -/
def Screen.cols (s : Screen) : Nat :=
  s.num_cols

/-- Mirror of `Screen::new` with a known window size (the escape-sequence probe of
`get_window_size` only supplies `w`/`h` and is not needed by any claim).
Rejects zero-column or fewer-than-3-row windows, reserves 2 lines for the
status and message bars, and starts fully dirty with the help message
pending. -/
def Screen.new (w h : Nat) : Except SError Screen :=
  if w = 0 ∨ h < 3 then
    .error (.TooSmallWindow w h)
  else
    .ok
      { rx := 0
        num_cols := w
        num_rows := h - 2
        message := some (StatusMessage.new "Ctrl-? for help".toList MsgKind.Info)
        message_is_shown := false
        dirty_start := some 0
        cursor_moved := true
        rowoff := 0
        coloff := 0 }

/-- Mirror of `Screen::set_dirty_start`: merge-by-minimum — keep an existing smaller
mark, otherwise replace. -/
def Screen.set_dirty_start (s : Screen) (start : Nat) : Screen :=
  match s.dirty_start with
  | some v => if v < start then s else { s with dirty_start := some start }
  | none => { s with dirty_start := some start }

/-- The render-x computation at the top of `Screen::do_scroll`: the rendered
cursor column via `Row::rx_from_cx`, or 0 when the cursor sits on a
not-yet-existing row. -/
def scrollRx (rows : List Row) (cx cy : Nat) : Nat :=
  if cy < rows.length then (rows.getD cy ⟨[]⟩).rx_from_cx cx else 0

/-- Loop body of `Screen::next_coloff`: accumulate display widths and stop
at the first accumulated column ≥ `want_stop`. -/
def next_coloff_go (want_stop coloff : Nat) : List RChar → Nat
  | [] => coloff
  | c :: cs =>
    let coloff := coloff + c.w
    if want_stop ≤ coloff then coloff else next_coloff_go want_stop coloff cs

/-- Mirror of `Screen::next_coloff`: the smallest accumulated rendered-column ≥
`want_stop` (so the screen cannot start in the middle of a double-width
character), or the row's total width if never reached. -/
def next_coloff (want_stop : Nat) (row : Row) : Nat :=
  next_coloff_go want_stop 0 row.render

/-- The row-offset adjustment of `Screen::do_scroll`: scroll up when the
cursor is above the window, then scroll down when it is below. -/
def Screen.scroll_rowoff (s : Screen) (cy : Nat) : Nat :=
  let rowoff := if cy < s.rowoff then cy else s.rowoff
  if rowoff + s.rows ≤ cy then cy - s.rows + 1 else rowoff

/-- The column-offset adjustment of `Screen::do_scroll`: pull left to `rx`,
then, when `rx` is past the right edge, jump to the next glyph boundary via
`next_coloff` (this is where the source indexes `rows[cy]`). -/
def Screen.scroll_coloff (s : Screen) (rows : List Row) (cy rx : Nat) : Nat :=
  let coloff := if rx < s.coloff then rx else s.coloff
  if coloff + s.num_cols ≤ rx then
    next_coloff (rx - s.num_cols + 1) (rows.getD cy ⟨[]⟩)
  else coloff

/-- Mirror of `Screen::do_scroll`: recompute `rx`, pull the viewport to contain the
cursor (rows, then columns), and mark everything from the new `rowoff` dirty
if either offset moved. -/
def Screen.do_scroll (s : Screen) (rows : List Row) (cx cy : Nat) : Screen :=
  let rx := scrollRx rows cx cy
  let rowoff := s.scroll_rowoff cy
  let coloff := s.scroll_coloff rows cy rx
  let s' := { s with rx := rx, rowoff := rowoff, coloff := coloff }
  if s.rowoff ≠ rowoff ∨ s.coloff ≠ coloff then
    s'.set_dirty_start rowoff
  else
    s'

/-- A run of `n` space characters (the `buf.write(b" ")` loops). -/
def spaces (n : Nat) : List Char :=
  List.replicate n ' '

/-- Mirror of `Screen::trim_line`, on character lists (ASCII assumption: byte length
equals character count). -/
def Screen.trim_line (s : Screen) (line : List Char) : List Char :=
  if line.length ≤ s.coloff then []
  else (line.drop s.coloff).take s.num_cols

/-- The welcome banner text `format!("Kiro editor -- version {}", VERSION)`.
`VERSION` comes from the crate manifest, which is not among the sources; its
exact value does not affect any claim. -/
def versionLine : List Char :=
  "Kiro editor -- version 0.4.2".toList

/-- Mirror of `Screen::draw_welcome_message`: a `~`, centering padding, and the
width-clamped banner. -/
def Screen.draw_welcome_message (s : Screen) : List Out :=
  let welcome := s.trim_line versionLine
  let padding := (s.num_cols - welcome.length) / 2
  (if 0 < padding then [Out.text ['~'], Out.text (spaces (padding - 1))] else [])
    ++ [Out.text welcome]

/-- The character loop of `Screen::draw_rows` for one row: rendered chars
zipped with their highlight colors, accumulating the display column,
skipping columns ≤ `coloff`, stopping past `num_cols + coloff`, and emitting
a color item exactly when the color changes.  Returns the emitted items and
the color active afterwards (`prev_color`). -/
def drawRowChars (s : Screen) : List (RChar × Color) → Nat → Color → List Out × Color
  | [], _, prev => ([], prev)
  | (c, h) :: rest, col, prev =>
    let col := col + c.w
    if col ≤ s.coloff then
      drawRowChars s rest col prev
    else if s.num_cols + s.coloff < col then
      ([], prev)
    else
      let tail := drawRowChars s rest col h
      ((if h ≠ prev then [Out.color h] else []) ++ Out.text [c.ch] :: tail.1, tail.2)

/-- One iteration of the row loop of `Screen::draw_rows` at screen row `y`:
skip already-correct rows, move the cursor, draw welcome banner / `~` /
row content, and clear to end of line. -/
def drawRowAt (s : Screen) (dirty_start : Nat) (rows : List Row)
    (hl : Highlighting) (y : Nat) (prev : Color) : List Out × Color :=
  let file_row := y + s.rowoff
  if file_row < dirty_start then
    ([], prev)
  else
    let body :=
      if rows.length ≤ file_row then
        if rows.isEmpty ∧ y = s.rows / 3 then
          (s.draw_welcome_message, prev)
        else if prev ≠ Color.Reset then
          ([Out.color Color.Reset, Out.text ['~']], Color.Reset)
        else
          ([Out.text ['~']], prev)
      else
        let row := rows.getD file_row ⟨[]⟩
        drawRowChars s (row.render.zip (hl.lines.getD file_row [])) 0 prev
    (Out.moveTo (y + 1) :: body.1 ++ [Out.clearLine], body.2)

/-- The row loop of `Screen::draw_rows`, iterating `n` screen rows starting
at `y`, threading `prev_color`. -/
def drawRowsGo (s : Screen) (dirty_start : Nat) (rows : List Row)
    (hl : Highlighting) : Nat → Nat → Color → List Out × Color
  | _, 0, prev => ([], prev)
  | y, n + 1, prev =>
    let step := drawRowAt s dirty_start rows hl y prev
    let rest := drawRowsGo s dirty_start rows hl (y + 1) n step.2
    (step.1 ++ rest.1, rest.2)

/-- Mirror of `Screen::draw_rows`: an unconditional leading attribute reset, the row
loop over all `Screen::rows()` visible rows, and a trailing reset whenever a
non-neutral color is still active. -/
def Screen.draw_rows (s : Screen) (dirty_start : Nat) (rows : List Row)
    (hl : Highlighting) : List Out :=
  let loop := drawRowsGo s dirty_start rows hl 0 s.rows Color.Reset
  Out.color Color.Reset :: loop.1
    ++ (if loop.2 ≠ Color.Reset then [Out.color Color.Reset] else [])

/-- Mirror of `SystemTime::duration_since` on second-valued clocks: errors exactly
when the earlier timestamp is later than `now`. -/
def duration_since (now t : Nat) : Except SError Nat :=
  if now < t then .error .Clock else .ok (now - t)

/-- Body of `Screen::should_redraw_message_bar`, as a function of the
message field: a shown message needs processing once older than 5 seconds
(clock errors propagate through `?`); no message never does; a
set-but-unpainted message always does. -/
def shouldRedrawMsg (msg : Option StatusMessage) (now : Nat) : Except SError Bool :=
  match msg with
  | some { timestamp := some t, .. } =>
    match duration_since now t with
    | .error e => .error e
    | .ok d => .ok (decide (5 < d))
  | none => .ok false
  | some { timestamp := none, .. } => .ok true

/-- Mirror of `Screen::should_redraw_message_bar`. -/
def Screen.should_redraw_message_bar (s : Screen) (now : Nat) : Except SError Bool :=
  shouldRedrawMsg s.message now

/-- Mirror of `Screen::draw_message_bar`: an already-painted message is dropped
without drawing (it is about to be squashed); an unpainted one is drawn on
line `num_rows + 2` (red-background wrapped for errors), width-clamped,
stamped with `now`, and the line is cleared to the right. -/
def Screen.draw_message_bar (s : Screen) (now : Nat) : List Out × Screen :=
  match s.message with
  | none => ([], s)
  | some m =>
    match m.timestamp with
    | some _ => ([], { s with message := none })
    | none =>
      let msg := m.text.take s.num_cols
      let items :=
        Out.moveTo (s.num_rows + 2) ::
          (if m.kind = MsgKind.Error then
            [Out.color Color.RedBG, Out.text msg, Out.color Color.Reset]
          else
            [Out.text msg])
          ++ [Out.clearLine]
      (items, { s with message := some { m with timestamp := some now } })

/-- The `message_is_shown` recomputation inside `Screen::redraw`, as a
function of the message field: the message exists and carries a paint
timestamp. -/
def msgShown (msg : Option StatusMessage) : Bool :=
  match msg with
  | some { timestamp := some _, .. } => true
  | _ => false

/-- The `message_is_shown` recomputation inside `Screen::redraw`. -/
def Screen.messageShown (s : Screen) : Bool :=
  msgShown s.message

/-- Mirror of `Screen::draw_status_bar`: position on the line after the text rows,
invert video, left fragment truncated to the width; stop if nothing
remains; if the right fragment does not fit, pad with spaces and stop;
otherwise center-pad, write the right fragment and reset attributes. -/
def Screen.draw_status_bar (s : Screen) (sb : StatusBar) : List Out :=
  let left := sb.left.take s.num_cols
  let base := [Out.moveTo (s.rows + 1), Out.color Color.Invert, Out.text left]
  let rest_len := s.num_cols - left.length
  if rest_len = 0 then
    base
  else if rest_len < sb.right.length then
    base ++ [Out.text (spaces rest_len)]
  else
    base ++ [Out.text (spaces (rest_len - sb.right.length)),
      Out.text sb.right, Out.color Color.Reset]

/-- The full-frame branch of `Screen::redraw` (taken when something is
dirty, the status bar asks to be redrawn, or the message bar needs
processing): hide cursor, dirty row region, message bar, status bar (when
its flag is set or message-bar visibility toggled), cursor reposition,
reveal cursor.  Returns the emitted output, the dirty start for the next
cycle (the revealed last text row when the message bar was squashed), and
the updated state. -/
def Screen.redrawFull (s : Screen) (now : Nat) (tb : TextBuffer)
    (hl : Highlighting) (sb : StatusBar) (redraw_message_bar : Bool) :
    List Out × Option Nat × Screen :=
  let cursor_row := tb.cy - s.rowoff + 1
  let cursor_col := s.rx - s.coloff + 1
  let rowsOut :=
    match s.dirty_start with
    | some ds => s.draw_rows ds tb.rows hl
    | none => []
  let msgStep := if redraw_message_bar then s.draw_message_bar now else ([], s)
  let shown := msgStep.2.messageShown
  let squashing := s.message_is_shown = true ∧ shown = false
  let toggling := s.message_is_shown ≠ shown
  let s2 := { msgStep.2 with message_is_shown := shown }
  let sbOut := if sb.redraw = true ∨ toggling then s2.draw_status_bar sb else []
  let out := Out.hideCursor :: rowsOut ++ msgStep.1 ++ sbOut
    ++ [Out.moveToRC cursor_row cursor_col, Out.showCursor]
  let next := if squashing then some (s2.rowoff + s2.rows - 1) else none
  (out, next, s2)

/-- Mirror of `Screen::redraw`: either the idle early-exit (at most a cursor
reposition when the cursor moved), or the full frame via `redrawFull`. -/
def Screen.redraw (s : Screen) (now : Nat) (tb : TextBuffer) (hl : Highlighting)
    (sb : StatusBar) : Except SError (List Out × Option Nat × Screen) :=
  match s.should_redraw_message_bar now with
  | .error e => .error e
  | .ok redraw_message_bar =>
    if s.dirty_start = none ∧ sb.redraw = false ∧ redraw_message_bar = false then
      if s.cursor_moved then
        .ok ([Out.moveToRC (tb.cy - s.rowoff + 1) (s.rx - s.coloff + 1)],
          none, s)
      else
        .ok ([], none, s)
    else
      .ok (s.redrawFull now tb hl sb redraw_message_bar)

/-- Mirror of `Screen::refresh`: scroll-adjust, redraw, store the next dirty start and
clear `cursor_moved`.  (`Highlighting::update`, not among the sources, only
extends `hl.lines` downward; `hl` is taken already extended.) -/
def Screen.refresh (s : Screen) (now : Nat) (tb : TextBuffer) (hl : Highlighting)
    (sb : StatusBar) : Except SError (List Out × Screen) :=
  let sA := s.do_scroll tb.rows tb.cx tb.cy
  match sA.redraw now tb hl sb with
  | .error e => .error e
  | .ok (out, next, s2) =>
    .ok (out, { s2 with dirty_start := next, cursor_moved := false })

/-- The printed (visible) characters of an output fragment: the
concatenation of its literal text items. -/
def outText : List Out → List Char
  | [] => []
  | Out.text s :: rest => s ++ outText rest
  | _ :: rest => outText rest

/-- The attribute the terminal has active after processing an output
fragment, starting from `init`: each `Out.color` item overwrites it. -/
def activeColor (init : Color) : List Out → Color
  | [] => init
  | Out.color c :: rest => activeColor c rest
  | _ :: rest => activeColor init rest

/-- Output of the second of two identical `refresh` calls, when both
succeed. -/
def refreshTwiceSnd (s : Screen) (now : Nat) (tb : TextBuffer) (hl : Highlighting)
    (sb : StatusBar) : Option (List Out) :=
  match s.refresh now tb hl sb with
  | .ok (_, s1) =>
    match s1.refresh now tb hl sb with
    | .ok (o2, _) => some o2
    | .error _ => none
  | .error _ => none

/-- A single-character row of width 1. -/
def singleRow : Row := ⟨[⟨'a', 1⟩]⟩

/-- A 20-character row of width-1 glyphs. -/
def c1RowA : Row := ⟨List.replicate 20 ⟨'a', 1⟩⟩

/-- A 10-character row of double-width glyphs. -/
def c1RowW : Row := ⟨List.replicate 10 ⟨'W', 2⟩⟩

/-- Concrete 10-column screen for the column-scroll boundary analysis. -/
def c1Screen : Screen :=
  { rx := 0, num_cols := 10, num_rows := 5
    message := none, message_is_shown := false, dirty_start := some 0
    cursor_moved := true, rowoff := 0, coloff := 0 }

/-- Concrete clean-state (no dirty mark) screen. -/
def c2Screen : Screen :=
  { rx := 0, num_cols := 10, num_rows := 5
    message := none, message_is_shown := false, dirty_start := none
    cursor_moved := false, rowoff := 0, coloff := 0 }

/-- Concrete screen with a pending (set, not yet painted) message and the
cursor about to sit on the last currently visible text row. -/
def c3Screen : Screen :=
  { rx := 0, num_cols := 10, num_rows := 2
    message := some (StatusMessage.new "hi".toList MsgKind.Info)
    message_is_shown := false, dirty_start := some 0, cursor_moved := true
    rowoff := 0, coloff := 0 }

/-- Three-row text buffer with the cursor on the last row. -/
def c3Tb : TextBuffer := ⟨List.replicate 3 singleRow, 0, 2⟩

/-- Matching highlight annotations. -/
def c3Hl : Highlighting := ⟨List.replicate 3 [Color.Hl 0]⟩

/-- Status-bar content with the redraw flag off. -/
def c3Sb : StatusBar := ⟨"L".toList, "R".toList, false⟩

/-- Concrete idle screen (no message, nothing dirty carried in). -/
def c3wScreen : Screen :=
  { rx := 0, num_cols := 10, num_rows := 2
    message := none, message_is_shown := false, dirty_start := some 0
    cursor_moved := true, rowoff := 0, coloff := 0 }

/-- Concrete screen showing a message painted at second 0. -/
def c4Screen : Screen :=
  { rx := 0, num_cols := 10, num_rows := 2
    message := some ⟨"m".toList, some 0, MsgKind.Info⟩
    message_is_shown := true, dirty_start := none, cursor_moved := false
    rowoff := 0, coloff := 0 }

/-- The message record shown on `c4Screen`. -/
def c4Msg : StatusMessage := ⟨"m".toList, some 0, MsgKind.Info⟩

/-- Concrete screen showing a message painted at second 0 (expiry case). -/
def c5Screen : Screen :=
  { rx := 0, num_cols := 10, num_rows := 2
    message := some ⟨"bye".toList, some 0, MsgKind.Error⟩
    message_is_shown := true, dirty_start := none, cursor_moved := false
    rowoff := 0, coloff := 0 }

/-- The message record shown on `c5Screen`. -/
def c5Msg : StatusMessage := ⟨"bye".toList, some 0, MsgKind.Error⟩

/-- Concrete screen whose message timestamp (second 10) lies in the future
of the refresh clock, triggering the `duration_since` error. -/
def c6Screen : Screen :=
  { rx := 0, num_cols := 10, num_rows := 2
    message := some ⟨"m".toList, some 10, MsgKind.Info⟩
    message_is_shown := true, dirty_start := none, cursor_moved := false
    rowoff := 0, coloff := 0 }

/-- The message record shown on `c6Screen`. -/
def c6Msg : StatusMessage := ⟨"m".toList, some 10, MsgKind.Info⟩

/-- One-row text buffer. -/
def c6Tb : TextBuffer := ⟨[singleRow], 0, 0⟩

/-- Matching highlight annotations. -/
def c6Hl : Highlighting := ⟨[[Color.Hl 0]]⟩

/-- Status-bar content with the redraw flag off. -/
def c6Sb : StatusBar := ⟨"L".toList, "R".toList, false⟩

/-- Concrete 10-column screen for the status-bar layout witness. -/
def c7Screen : Screen :=
  { rx := 0, num_cols := 10, num_rows := 5
    message := none, message_is_shown := false, dirty_start := none
    cursor_moved := false, rowoff := 0, coloff := 0 }

/-- Status-bar content whose fragments fit the 10-column width. -/
def c7Sb : StatusBar := ⟨"abc".toList, "de".toList, true⟩

/-- The 80×24 scenario screen: 22 text rows (message bar shown), unscrolled. -/
def c8Screen : Screen :=
  { rx := 0, num_cols := 80, num_rows := 22
    message := some ⟨"m".toList, some 0, MsgKind.Info⟩
    message_is_shown := true, dirty_start := none, cursor_moved := false
    rowoff := 0, coloff := 0 }

/-- A 51-row text model, putting row 50 below the initial viewport. -/
def c8Rows : List Row := List.replicate 51 singleRow

/-- The screen produced by `Screen.new 80 24`. -/
def c10Screen : Screen :=
  { rx := 0, num_cols := 80, num_rows := 22
    message := some (StatusMessage.new "Ctrl-? for help".toList MsgKind.Info)
    message_is_shown := false, dirty_start := some 0, cursor_moved := true
    rowoff := 0, coloff := 0 }

/-! ## Helper lemmas: `set_dirty_start` -/

theorem set_dirty_start_eq (s : Screen) (n : Nat) :
    s.set_dirty_start n =
      { s with dirty_start := some (min (s.dirty_start.getD n) n) } := by
  obtain ⟨a, b, c, d, e, ds, f, g, h⟩ := s
  cases ds with
  | none => simp [Screen.set_dirty_start]
  | some v =>
    by_cases hv : v < n
    · have hmin : min v n = v := by omega
      simp [Screen.set_dirty_start, hv, hmin]
    · have hmin : min v n = n := by omega
      simp [Screen.set_dirty_start, hv, hmin]

/-! ## Helper lemmas: `do_scroll` characterization -/

theorem do_scroll_eq (s : Screen) (rows : List Row) (cx cy : Nat) :
    s.do_scroll rows cx cy =
      { s with
        rx := scrollRx rows cx cy
        rowoff := s.scroll_rowoff cy
        coloff := s.scroll_coloff rows cy (scrollRx rows cx cy)
        dirty_start :=
          if s.rowoff ≠ s.scroll_rowoff cy ∨
              s.coloff ≠ s.scroll_coloff rows cy (scrollRx rows cx cy) then
            some (min (s.dirty_start.getD (s.scroll_rowoff cy)) (s.scroll_rowoff cy))
          else s.dirty_start } := by
  simp only [Screen.do_scroll]
  split
  · rw [set_dirty_start_eq]
  · rfl

theorem do_scroll_rx (s : Screen) (rows : List Row) (cx cy : Nat) :
    (s.do_scroll rows cx cy).rx = scrollRx rows cx cy := by
  rw [do_scroll_eq]

theorem do_scroll_rowoff (s : Screen) (rows : List Row) (cx cy : Nat) :
    (s.do_scroll rows cx cy).rowoff = s.scroll_rowoff cy := by
  rw [do_scroll_eq]

theorem do_scroll_coloff (s : Screen) (rows : List Row) (cx cy : Nat) :
    (s.do_scroll rows cx cy).coloff =
      s.scroll_coloff rows cy (scrollRx rows cx cy) := by
  rw [do_scroll_eq]

theorem do_scroll_num_cols (s : Screen) (rows : List Row) (cx cy : Nat) :
    (s.do_scroll rows cx cy).num_cols = s.num_cols := by
  rw [do_scroll_eq]

theorem do_scroll_num_rows (s : Screen) (rows : List Row) (cx cy : Nat) :
    (s.do_scroll rows cx cy).num_rows = s.num_rows := by
  rw [do_scroll_eq]

theorem do_scroll_message (s : Screen) (rows : List Row) (cx cy : Nat) :
    (s.do_scroll rows cx cy).message = s.message := by
  rw [do_scroll_eq]

theorem do_scroll_mis (s : Screen) (rows : List Row) (cx cy : Nat) :
    (s.do_scroll rows cx cy).message_is_shown = s.message_is_shown := by
  rw [do_scroll_eq]

theorem do_scroll_cursor_moved (s : Screen) (rows : List Row) (cx cy : Nat) :
    (s.do_scroll rows cx cy).cursor_moved = s.cursor_moved := by
  rw [do_scroll_eq]

theorem do_scroll_rows_eq (s : Screen) (rows : List Row) (cx cy : Nat) :
    (s.do_scroll rows cx cy).rows = s.rows := by
  unfold Screen.rows
  rw [do_scroll_mis, do_scroll_num_rows]

/-! ## Helper lemmas: effective height, `next_coloff`, glyph boundaries -/

theorem set_dirty_start_dirty (s : Screen) (n : Nat) :
    (s.set_dirty_start n).dirty_start = some (min (s.dirty_start.getD n) n) := by
  rw [set_dirty_start_eq]

theorem one_le_rows (s : Screen) (h : 1 ≤ s.num_rows) : 1 ≤ s.rows := by
  unfold Screen.rows
  split <;> omega

theorem scroll_rowoff_contain (s : Screen) (cy : Nat) (h : 1 ≤ s.rows) :
    s.scroll_rowoff cy ≤ cy ∧ cy < s.scroll_rowoff cy + s.rows := by
  simp only [Screen.scroll_rowoff]
  split_ifs <;> omega

theorem next_coloff_go_boundary (w : Nat) (cs : List RChar) :
    ∀ acc : Nat, ∃ j, j ≤ cs.length ∧
      next_coloff_go w acc cs = acc + ((cs.take j).map RChar.w).sum := by
  induction cs with
  | nil =>
    intro acc
    exact ⟨0, by simp [next_coloff_go]⟩
  | cons c cs ih =>
    intro acc
    by_cases hw : w ≤ acc + c.w
    · refine ⟨1, by simp, ?_⟩
      simp [next_coloff_go, hw]
    · obtain ⟨j, hj, he⟩ := ih (acc + c.w)
      refine ⟨j + 1, by simpa using hj, ?_⟩
      simp only [next_coloff_go, if_neg hw, List.take_succ_cons, List.map_cons,
        List.sum_cons]
      omega

theorem next_coloff_go_le (w : Nat) (cs : List RChar) :
    ∀ acc k, acc < w → w ≤ acc + ((cs.take k).map RChar.w).sum →
      next_coloff_go w acc cs ≤ acc + ((cs.take k).map RChar.w).sum := by
  induction cs with
  | nil =>
    intro acc k h1 h2
    simp only [List.take_nil, List.map_nil, List.sum_nil] at h2 ⊢
    omega
  | cons c cs ih =>
    intro acc k h1 h2
    cases k with
    | zero =>
      simp only [List.take_zero, List.map_nil, List.sum_nil] at h2
      omega
    | succ k =>
      simp only [List.take_succ_cons, List.map_cons, List.sum_cons] at h2 ⊢
      by_cases hw : w ≤ acc + c.w
      · simp only [next_coloff_go, if_pos hw]
        omega
      · simp only [next_coloff_go, if_neg hw]
        have := ih (acc + c.w) k (by omega) (by omega)
        omega

theorem next_coloff_go_ge (w : Nat) (cs : List RChar) :
    ∀ acc k, w ≤ acc + ((cs.take k).map RChar.w).sum →
      w ≤ next_coloff_go w acc cs := by
  induction cs with
  | nil =>
    intro acc k h
    simp only [List.take_nil, List.map_nil, List.sum_nil] at h
    simpa [next_coloff_go] using h
  | cons c cs ih =>
    intro acc k h
    by_cases hw : w ≤ acc + c.w
    · simpa [next_coloff_go, if_pos hw] using hw
    · cases k with
      | zero =>
        simp only [List.take_zero, List.map_nil, List.sum_nil] at h
        omega
      | succ k =>
        simp only [List.take_succ_cons, List.map_cons, List.sum_cons] at h
        simp only [next_coloff_go, if_neg hw]
        exact ih (acc + c.w) k (by omega)

theorem sum_take_mem_boundaries (r : Row) (j : Nat) (hj : j ≤ r.render.length) :
    ((r.render.take j).map RChar.w).sum ∈ r.boundaries := by
  unfold Row.boundaries
  exact List.mem_map.mpr ⟨j, List.mem_range.mpr (by omega), rfl⟩

theorem rx_from_cx_mem_boundaries (r : Row) (cx : Nat) :
    r.rx_from_cx cx ∈ r.boundaries := by
  unfold Row.rx_from_cx
  by_cases h : cx ≤ r.render.length
  · exact sum_take_mem_boundaries r cx h
  · have he : r.render.take cx = r.render.take r.render.length := by
      rw [List.take_of_length_le (by omega), List.take_length]
    rw [he]
    exact sum_take_mem_boundaries r _ le_rfl

theorem zero_mem_boundaries (r : Row) : 0 ∈ r.boundaries := by
  have := sum_take_mem_boundaries r 0 (Nat.zero_le _)
  simpa using this

theorem scrollRx_mem_boundaries (rows : List Row) (cx cy : Nat) :
    scrollRx rows cx cy ∈ (rows.getD cy ⟨[]⟩).boundaries := by
  unfold scrollRx
  split
  · exact rx_from_cx_mem_boundaries _ cx
  · exact zero_mem_boundaries _

theorem scrollRx_of_len_le (rows : List Row) (cx cy : Nat)
    (h : rows.length ≤ cy) : scrollRx rows cx cy = 0 := by
  unfold scrollRx
  rw [if_neg (by omega)]

theorem scroll_coloff_contain (s : Screen) (rows : List Row) (cx cy : Nat)
    (hc : 1 ≤ s.num_cols) :
    s.scroll_coloff rows cy (scrollRx rows cx cy) ≤ scrollRx rows cx cy ∧
      scrollRx rows cx cy <
        s.scroll_coloff rows cy (scrollRx rows cx cy) + s.num_cols := by
  set rx := scrollRx rows cx cy with hrx
  simp only [Screen.scroll_coloff]
  have hle : (if rx < s.coloff then rx else s.coloff) ≤ rx := by
    split_ifs <;> omega
  by_cases hbr : (if rx < s.coloff then rx else s.coloff) + s.num_cols ≤ rx
  · rw [if_pos hbr]
    have hcy : cy < rows.length := by
      by_contra hcy
      have h0 := scrollRx_of_len_le rows cx cy (by omega)
      rw [← hrx] at h0
      omega
    have hrxval :
        rx = (((rows.getD cy ⟨[]⟩).render.take cx).map RChar.w).sum := by
      rw [hrx]
      unfold scrollRx Row.rx_from_cx
      rw [if_pos hcy]
    unfold next_coloff
    have hge := next_coloff_go_ge (rx - s.num_cols + 1)
      (rows.getD cy ⟨[]⟩).render 0 cx (by omega)
    have hub := next_coloff_go_le (rx - s.num_cols + 1)
      (rows.getD cy ⟨[]⟩).render 0 cx (by omega) (by omega)
    omega
  · rw [if_neg hbr]
    omega

theorem scroll_coloff_boundary (s : Screen) (rows : List Row) (cx cy : Nat) :
    s.scroll_coloff rows cy (scrollRx rows cx cy) = s.coloff ∨
      s.scroll_coloff rows cy (scrollRx rows cx cy) ∈
        (rows.getD cy ⟨[]⟩).boundaries := by
  set rx := scrollRx rows cx cy with hrx
  simp only [Screen.scroll_coloff]
  by_cases hbr : (if rx < s.coloff then rx else s.coloff) + s.num_cols ≤ rx
  · right
    rw [if_pos hbr]
    unfold next_coloff
    obtain ⟨j, hj, he⟩ :=
      next_coloff_go_boundary (rx - s.num_cols + 1) (rows.getD cy ⟨[]⟩).render 0
    rw [he]
    simpa using sum_take_mem_boundaries _ j hj
  · rw [if_neg hbr]
    by_cases h1 : rx < s.coloff
    · right
      rw [if_pos h1, hrx]
      exact scrollRx_mem_boundaries rows cx cy
    · left
      rw [if_neg h1]

/-- A `do_scroll` call on a state already containing the cursor, with an
unchanged render column, is the identity. -/
theorem do_scroll_noop (s : Screen) (rows : List Row) (cx cy : Nat)
    (hrx : scrollRx rows cx cy = s.rx)
    (h1 : s.rowoff ≤ cy) (h2 : cy < s.rowoff + s.rows)
    (h3 : s.coloff ≤ s.rx) (h4 : s.rx < s.coloff + s.num_cols) :
    s.do_scroll rows cx cy = s := by
  have hro : s.scroll_rowoff cy = s.rowoff := by
    simp only [Screen.scroll_rowoff]
    split_ifs <;> omega
  have hco : s.scroll_coloff rows cy (scrollRx rows cx cy) = s.coloff := by
    simp only [Screen.scroll_coloff, hrx]
    rw [if_neg (show ¬ s.rx < s.coloff by omega)]
    rw [if_neg (show ¬ s.coloff + s.num_cols ≤ s.rx by omega)]
  rw [do_scroll_eq, hro, hco, hrx]
  simp

/-! ## C1 — viewport containment and glyph boundaries after `do_scroll` -/

/-- C1 (amended): after any single `do_scroll` on a legal window
(`num_cols ≥ 1`, `num_rows ≥ 1`), the cursor row lies inside
`[rowoff, rowoff + rows)`, the render column lies inside
`[coloff, coloff + num_cols)`, and whenever the call moved `coloff`, the new
`coloff` is a glyph boundary of the cursor's rendered row.  (The original
claim that `coloff` is *always* a boundary of the cursor's row fails across
row changes; see the counterexample.) -/
theorem do_scroll_viewport_amended (s : Screen) (rows : List Row) (cx cy : Nat)
    (hc : 1 ≤ s.num_cols) (hr : 1 ≤ s.num_rows) :
    ((s.do_scroll rows cx cy).rowoff ≤ cy ∧
      cy < (s.do_scroll rows cx cy).rowoff + (s.do_scroll rows cx cy).rows) ∧
    ((s.do_scroll rows cx cy).coloff ≤ (s.do_scroll rows cx cy).rx ∧
      (s.do_scroll rows cx cy).rx <
        (s.do_scroll rows cx cy).coloff + (s.do_scroll rows cx cy).num_cols) ∧
    ((s.do_scroll rows cx cy).coloff ≠ s.coloff →
      (s.do_scroll rows cx cy).coloff ∈ (rows.getD cy ⟨[]⟩).boundaries) := by
  rw [do_scroll_rowoff, do_scroll_rows_eq, do_scroll_coloff, do_scroll_rx,
    do_scroll_num_cols]
  obtain ⟨a1, a2⟩ := scroll_rowoff_contain s cy (one_le_rows s hr)
  obtain ⟨b1, b2⟩ := scroll_coloff_contain s rows cx cy hc
  refine ⟨⟨a1, a2⟩, ⟨b1, b2⟩, fun hne => ?_⟩
  rcases scroll_coloff_boundary s rows cx cy with h | h
  · exact absurd h hne
  · exact h

/-- C1 witness: the amended theorem applied at a concrete screen and cursor
position. -/
theorem do_scroll_viewport_amended_witness :
    ((c1Screen.do_scroll [c1RowA, c1RowW] 16 0).rowoff ≤ 0 ∧
      0 < (c1Screen.do_scroll [c1RowA, c1RowW] 16 0).rowoff +
        (c1Screen.do_scroll [c1RowA, c1RowW] 16 0).rows) ∧
    ((c1Screen.do_scroll [c1RowA, c1RowW] 16 0).coloff ≤
        (c1Screen.do_scroll [c1RowA, c1RowW] 16 0).rx ∧
      (c1Screen.do_scroll [c1RowA, c1RowW] 16 0).rx <
        (c1Screen.do_scroll [c1RowA, c1RowW] 16 0).coloff +
          (c1Screen.do_scroll [c1RowA, c1RowW] 16 0).num_cols) ∧
    ((c1Screen.do_scroll [c1RowA, c1RowW] 16 0).coloff ≠ c1Screen.coloff →
      (c1Screen.do_scroll [c1RowA, c1RowW] 16 0).coloff ∈
        ([c1RowA, c1RowW].getD 0 ⟨[]⟩).boundaries) :=
  do_scroll_viewport_amended c1Screen [c1RowA, c1RowW] 16 0
    (by decide) (by decide)

/-- C1 counterexample: two successive cursor moves (first within a
width-1 row, then to a double-width row) leave `coloff = 7`, which falls
strictly inside a double-width glyph of the cursor's rendered row — the
claimed invariant "`col_offset` is always a glyph boundary of the cursor's
rendered row, for any sequence of cursor moves" is false. -/
theorem do_scroll_coloff_midglyph_cex :
    ((c1Screen.do_scroll [c1RowA, c1RowW] 16 0).do_scroll
        [c1RowA, c1RowW] 4 1).coloff = 7 ∧
    ¬ (((c1Screen.do_scroll [c1RowA, c1RowW] 16 0).do_scroll
        [c1RowA, c1RowW] 4 1).coloff ∈
      ([c1RowA, c1RowW].getD 1 ⟨[]⟩).boundaries) := by
  decide

/-! ## C2 — dirty-mark merge semantics -/

/-- C2: `set_dirty_start` merges by minimum.  From a clean state, marking
`a` then `b` yields `min a b` in either order; from a dirty state `v` it
yields `min v (min a b)`; marking is idempotent; and marking never
increases an already-set dirty start. -/
theorem set_dirty_start_merge_min (a b : Nat) (s : Screen) :
    (s.dirty_start = none →
      ((s.set_dirty_start a).set_dirty_start b).dirty_start = some (min a b)) ∧
    (∀ v, s.dirty_start = some v →
      ((s.set_dirty_start a).set_dirty_start b).dirty_start =
        some (min v (min a b))) ∧
    ((s.set_dirty_start a).set_dirty_start a = s.set_dirty_start a) ∧
    (∀ v, s.dirty_start = some v →
      ∃ u, (s.set_dirty_start a).dirty_start = some u ∧ u ≤ v) := by
  refine ⟨?_, ?_, ?_, ?_⟩
  · intro h
    rw [set_dirty_start_dirty, set_dirty_start_dirty, h]
    simp only [Option.getD_none, Option.getD_some]
    congr 1
    omega
  · intro v h
    rw [set_dirty_start_dirty, set_dirty_start_dirty, h]
    simp only [Option.getD_some]
    congr 1
    omega
  · conv_lhs => rw [set_dirty_start_eq (s.set_dirty_start a) a]
    rw [set_dirty_start_dirty]
    simp only [Option.getD_some]
    have hm : min (min (s.dirty_start.getD a) a) a = min (s.dirty_start.getD a) a := by
      omega
    rw [hm, ← set_dirty_start_dirty]
  · intro v h
    refine ⟨min v a, ?_, by omega⟩
    rw [set_dirty_start_dirty, h]
    simp

/-- C2 witness: from a clean screen, marking 5 then 3 leaves the dirty mark
at `min 5 3`. -/
theorem set_dirty_start_merge_min_witness :
    c2Screen.dirty_start = none ∧
    ((c2Screen.set_dirty_start 5).set_dirty_start 3).dirty_start =
      some (min 5 3) :=
  ⟨rfl, (set_dirty_start_merge_min 5 3 c2Screen).1 rfl⟩

/-! ## C8 — the 80×24 scroll scenario -/

/-- C8: on an 80×24 terminal (22 effective text rows, message bar shown),
moving the cursor to row 50 column 0 scrolls `rowoff` to `50 − 22 + 1 = 29`
and sets the dirty mark to 29. -/
theorem scroll_scenario_80x24 :
    (c8Screen.do_scroll c8Rows 0 50).rowoff = 29 ∧
    (c8Screen.do_scroll c8Rows 0 50).dirty_start = some 29 := by
  decide

/-! ## C10 — `do_scroll` cannot index `rows[cy]` out of bounds -/

/-- C10: any screen built by `Screen::new` has `num_cols ≥ 1` (the
`TooSmallWindow` check rejects zero-column windows); when the cursor is on a
not-yet-existing row the computed `rx` is 0, so the rightward column-scroll
branch guard `rx ≥ coloff + num_cols` can never hold there; conversely the
guard implies `cy < rows.len()`, so the `rows[cy]` access in that branch is
in bounds. -/
theorem do_scroll_index_in_bounds (w h : Nat) (s : Screen)
    (hnew : Screen.new w h = .ok s) :
    1 ≤ s.num_cols ∧
    (∀ (rows : List Row) (cx cy : Nat), rows.length ≤ cy →
      scrollRx rows cx cy = 0) ∧
    (∀ (rows : List Row) (cx cy coloff : Nat), rows.length ≤ cy →
      ¬ (coloff + s.num_cols ≤ scrollRx rows cx cy)) ∧
    (∀ (rows : List Row) (cx cy coloff : Nat),
      coloff + s.num_cols ≤ scrollRx rows cx cy → cy < rows.length) := by
  have hw : s.num_cols = w ∧ ¬(w = 0 ∨ h < 3) := by
    unfold Screen.new at hnew
    split at hnew
    · simp at hnew
    · next hcond =>
      refine ⟨?_, hcond⟩
      cases hnew
      rfl
  obtain ⟨hw1, hw2⟩ := hw
  refine ⟨by omega, fun rows cx cy hlen => scrollRx_of_len_le rows cx cy hlen,
    ?_, ?_⟩
  · intro rows cx cy coloff hlen
    rw [scrollRx_of_len_le rows cx cy hlen]
    omega
  · intro rows cx cy coloff hle
    by_contra hcy
    rw [scrollRx_of_len_le rows cx cy (by omega)] at hle
    omega

/-- C10 witness: the theorem applied to the screen built from an 80×24
window. -/
theorem do_scroll_index_in_bounds_witness :
    Screen.new 80 24 = .ok c10Screen ∧
    1 ≤ c10Screen.num_cols ∧
    ¬ (0 + c10Screen.num_cols ≤ scrollRx [] 0 5) :=
  ⟨rfl, (do_scroll_index_in_bounds 80 24 c10Screen rfl).1,
    (do_scroll_index_in_bounds 80 24 c10Screen rfl).2.2.1 [] 0 5 0 (by simp)⟩

/-! ## C7 — status bar layout -/

theorem outText_append (a b : List Out) :
    outText (a ++ b) = outText a ++ outText b := by
  induction a with
  | nil => rfl
  | cons o rest ih =>
    cases o <;> simp [outText, ih]

/-- The printed characters of `draw_status_bar`, by branch. -/
theorem draw_status_bar_content (s : Screen) (sb : StatusBar) :
    outText (s.draw_status_bar sb) =
      if s.num_cols - (sb.left.take s.num_cols).length = 0 then
        sb.left.take s.num_cols
      else if s.num_cols - (sb.left.take s.num_cols).length < sb.right.length then
        sb.left.take s.num_cols ++
          spaces (s.num_cols - (sb.left.take s.num_cols).length)
      else
        sb.left.take s.num_cols ++
          spaces (s.num_cols - (sb.left.take s.num_cols).length - sb.right.length)
          ++ sb.right := by
  simp only [Screen.draw_status_bar]
  split_ifs <;> simp [outText, outText_append]

/-- C7: status-bar layout for width `W = num_cols`.  The printed content
always starts with the left fragment truncated to ≤ W columns; when
`len(left) + len(right) ≤ W` the content is exactly `W` columns with the
right fragment right-aligned after center spaces; when
`len(right) > W − len(left)` the content is the (truncated) left fragment
followed by spaces only, exactly `W` columns. -/
theorem draw_status_bar_layout (s : Screen) (sb : StatusBar) :
    ((∃ rest, outText (s.draw_status_bar sb) = sb.left.take s.num_cols ++ rest) ∧
      (sb.left.take s.num_cols).length ≤ s.num_cols) ∧
    (sb.left.length + sb.right.length ≤ s.num_cols →
      outText (s.draw_status_bar sb) =
        sb.left ++ spaces (s.num_cols - sb.left.length - sb.right.length)
          ++ sb.right ∧
      (outText (s.draw_status_bar sb)).length = s.num_cols) ∧
    (s.num_cols - sb.left.length < sb.right.length →
      outText (s.draw_status_bar sb) =
        sb.left.take s.num_cols ++
          spaces (s.num_cols - (sb.left.take s.num_cols).length) ∧
      (outText (s.draw_status_bar sb)).length = s.num_cols) := by
  have hlen : (sb.left.take s.num_cols).length = min s.num_cols sb.left.length :=
    List.length_take _ _
  rw [draw_status_bar_content]
  refine ⟨⟨?_, by omega⟩, ?_, ?_⟩
  · split_ifs
    · exact ⟨[], (List.append_nil _).symm⟩
    · exact ⟨spaces (s.num_cols - (sb.left.take s.num_cols).length), rfl⟩
    · exact ⟨spaces (s.num_cols - (sb.left.take s.num_cols).length -
        sb.right.length) ++ sb.right, (List.append_assoc _ _ _)⟩
  · intro hb
    have hl : sb.left.length ≤ s.num_cols := by omega
    have htl : sb.left.take s.num_cols = sb.left := List.take_of_length_le hl
    by_cases h0 : s.num_cols - (sb.left.take s.num_cols).length = 0
    · rw [if_pos h0]
      have hr : sb.right = [] := List.length_eq_zero.mp (by omega)
      have hlW : s.num_cols - sb.left.length - sb.right.length = 0 := by omega
      refine ⟨?_, ?_⟩
      · rw [htl, hlW, hr]
        simp [spaces]
      · rw [htl]
        omega
    · have h1 : ¬ (s.num_cols - (sb.left.take s.num_cols).length <
          sb.right.length) := by omega
      rw [if_neg h0, if_neg h1]
      refine ⟨?_, ?_⟩
      · rw [htl]
      · simp only [htl, List.length_append, spaces, List.length_replicate]
        omega
  · intro hcx
    by_cases h0 : s.num_cols - (sb.left.take s.num_cols).length = 0
    · rw [if_pos h0]
      refine ⟨?_, by omega⟩
      rw [h0]
      simp [spaces]
    · by_cases h1 : s.num_cols - (sb.left.take s.num_cols).length <
          sb.right.length
      · rw [if_neg h0, if_pos h1]
        refine ⟨rfl, ?_⟩
        simp only [List.length_append, spaces, List.length_replicate]
        omega
      · exfalso
        omega

/-- C7 witness: fragments "abc" and "de" on a 10-column screen lay out as
`abc·····de` (5 center spaces), exactly 10 columns. -/
theorem draw_status_bar_layout_witness :
    c7Sb.left.length + c7Sb.right.length ≤ c7Screen.num_cols ∧
    outText (c7Screen.draw_status_bar c7Sb) =
      c7Sb.left ++ spaces (c7Screen.num_cols - c7Sb.left.length -
        c7Sb.right.length) ++ c7Sb.right ∧
    (outText (c7Screen.draw_status_bar c7Sb)).length = c7Screen.num_cols :=
  ⟨by decide, ((draw_status_bar_layout c7Screen c7Sb).2.1 (by decide)).1,
    ((draw_status_bar_layout c7Screen c7Sb).2.1 (by decide)).2⟩

/-! ## C5 / C6 helper lemmas on the message bar -/

theorem shouldRedrawMsg_expired (m : StatusMessage) (t now : Nat)
    (ht : m.timestamp = some t) (h5 : 5 < now - t) :
    shouldRedrawMsg (some m) now = .ok true := by
  obtain ⟨tx, ts, k⟩ := m
  simp only at ht
  subst ht
  have hnlt : ¬ now < t := by omega
  simp [shouldRedrawMsg, duration_since, hnlt, h5]

theorem draw_message_bar_shown (s : Screen) (m : StatusMessage) (t now : Nat)
    (hm : s.message = some m) (ht : m.timestamp = some t) :
    s.draw_message_bar now = ([], { s with message := none }) := by
  obtain ⟨tx, ts, k⟩ := m
  simp only at ht
  subst ht
  simp [Screen.draw_message_bar, hm]

/-! ## C5 — an expired message transitions to hidden, never painted again -/

/-- C5: once a message has been painted (timestamp `t`), at any refresh
whose clock satisfies `now − t > 5` the message-bar pass draws nothing and
drops the message (transition to hidden); afterwards the message bar never
requires redrawing again. -/
theorem message_expires_hidden (s : Screen) (m : StatusMessage) (t now : Nat)
    (hm : s.message = some m) (ht : m.timestamp = some t) (h5 : 5 < now - t) :
    s.should_redraw_message_bar now = .ok true ∧
    (s.draw_message_bar now).1 = [] ∧
    (s.draw_message_bar now).2.message = none ∧
    (∀ now2, (s.draw_message_bar now).2.should_redraw_message_bar now2 =
      .ok false) := by
  have hd := draw_message_bar_shown s m t now hm ht
  refine ⟨?_, ?_, ?_, ?_⟩
  · unfold Screen.should_redraw_message_bar
    rw [hm]
    exact shouldRedrawMsg_expired m t now ht h5
  · rw [hd]
  · rw [hd]
  · intro now2
    rw [hd]
    rfl

/-- C5 witness: the shown error message of `c5Screen` (painted at second 0)
at a refresh clock of 7 seconds. -/
theorem message_expires_hidden_witness :
    c5Screen.message = some c5Msg ∧ c5Msg.timestamp = some 0 ∧ 5 < 7 - 0 ∧
    c5Screen.should_redraw_message_bar 7 = .ok true ∧
    (c5Screen.draw_message_bar 7).1 = [] ∧
    (c5Screen.draw_message_bar 7).2.message = none :=
  ⟨rfl, rfl, by omega,
    (message_expires_hidden c5Screen c5Msg 0 7 rfl rfl (by omega)).1,
    (message_expires_hidden c5Screen c5Msg 0 7 rfl rfl (by omega)).2.1,
    (message_expires_hidden c5Screen c5Msg 0 7 rfl rfl (by omega)).2.2.1⟩

/-! ## C6 — a clock error is propagated, not defaulted -/

theorem shouldRedrawMsg_clock_error (m : StatusMessage) (t now : Nat)
    (ht : m.timestamp = some t) (hnow : now < t) :
    shouldRedrawMsg (some m) now = .error SError.Clock := by
  obtain ⟨tx, ts, k⟩ := m
  simp only at ht
  subst ht
  simp [shouldRedrawMsg, duration_since, hnow]

/-- C6 counterexample: with a message timestamp of second 10 and a refresh
clock of second 3, `refresh` returns the clock error instead of completing
the frame — the claimed defensive default does not exist in the code. -/
theorem clock_error_refresh_cex :
    c6Screen.refresh 3 c6Tb c6Hl c6Sb = .error SError.Clock := by
  rfl

/-- C6 (amended): if the clock comparison for a shown message fails (its
timestamp lies in the future of `now`), `should_redraw_message_bar`
propagates the error through `?` and `refresh` returns it; the frame is not
completed. -/
theorem clock_error_propagated_amended (s : Screen) (m : StatusMessage)
    (t now : Nat) (tb : TextBuffer) (hl : Highlighting) (sb : StatusBar)
    (hm : s.message = some m) (ht : m.timestamp = some t) (hnow : now < t) :
    s.refresh now tb hl sb = .error SError.Clock := by
  have hsm : (s.do_scroll tb.rows tb.cx tb.cy).should_redraw_message_bar now =
      .error SError.Clock := by
    unfold Screen.should_redraw_message_bar
    rw [do_scroll_message, hm]
    exact shouldRedrawMsg_clock_error m t now ht hnow
  simp only [Screen.refresh, Screen.redraw]
  rw [hsm]

/-- C6 witness: the amended theorem at the concrete future-stamped message. -/
theorem clock_error_propagated_witness :
    c6Screen.message = some c6Msg ∧ c6Msg.timestamp = some 10 ∧ (3 : Nat) < 10 ∧
    c6Screen.refresh 3 c6Tb c6Hl c6Sb = .error SError.Clock :=
  ⟨rfl, rfl, by omega,
    clock_error_propagated_amended c6Screen c6Msg 10 3 c6Tb c6Hl c6Sb rfl rfl
      (by omega)⟩

/-! ## C4 — squashing marks the revealed last text row dirty -/

/-- Evaluation of `redraw` when the message-bar check returned `.ok b`. -/
theorem redraw_of_should (s : Screen) (now : Nat) (tb : TextBuffer)
    (hl : Highlighting) (sb : StatusBar) (b : Bool)
    (h : s.should_redraw_message_bar now = .ok b) :
    s.redraw now tb hl sb =
      if s.dirty_start = none ∧ sb.redraw = false ∧ b = false then
        (if s.cursor_moved then
          .ok ([Out.moveToRC (tb.cy - s.rowoff + 1) (s.rx - s.coloff + 1)],
            none, s)
        else
          .ok ([], none, s))
      else
        .ok (s.redrawFull now tb hl sb b) := by
  unfold Screen.redraw
  rw [h]

/-- Evaluation of `redrawFull` on a shown-but-expired message: the message is dropped,
`message_is_shown` is cleared, and the next dirty start is the newly
revealed last text row. -/
theorem redrawFull_squash (s : Screen) (m : StatusMessage) (t now : Nat)
    (tb : TextBuffer) (hl : Highlighting) (sb : StatusBar)
    (hm : s.message = some m) (ht : m.timestamp = some t)
    (hmis : s.message_is_shown = true) :
    ∃ out, s.redrawFull now tb hl sb true =
      (out, some (s.rowoff + s.num_rows),
        { s with message := none, message_is_shown := false }) := by
  have hd := draw_message_bar_shown s m t now hm ht
  simp only [Screen.redrawFull, if_pos]
  rw [hd]
  simp [Screen.messageShown, msgShown, hmis, Screen.rows]

/-- C4: when the shown message has expired (`now − t > 5`), the next
`refresh` draws nothing for the message region, hides the message, and
leaves the dirty mark at exactly the newly revealed last text row
(`row_offset + new effective rows − 1`, where the new effective height is
`num_rows + 1`), so that row is repainted on the following cycle. -/
theorem squash_marks_revealed_row (s : Screen) (m : StatusMessage)
    (t now : Nat) (tb : TextBuffer) (hl : Highlighting) (sb : StatusBar)
    (hm : s.message = some m) (ht : m.timestamp = some t)
    (hmis : s.message_is_shown = true) (h5 : 5 < now - t) :
    ∃ out s2, s.refresh now tb hl sb = .ok (out, s2) ∧
      ((s.do_scroll tb.rows tb.cx tb.cy).draw_message_bar now).1 = [] ∧
      s2.message = none ∧
      s2.message_is_shown = false ∧
      s2.rows = s.num_rows + 1 ∧
      s2.dirty_start = some (s2.rowoff + s2.rows - 1) := by
  set sA := s.do_scroll tb.rows tb.cx tb.cy with hsA
  have hmA : sA.message = some m := by
    rw [hsA, do_scroll_message]
    exact hm
  have hmisA : sA.message_is_shown = true := by
    rw [hsA, do_scroll_mis]
    exact hmis
  have hsm : sA.should_redraw_message_bar now = .ok true := by
    unfold Screen.should_redraw_message_bar
    rw [hmA]
    exact shouldRedrawMsg_expired m t now ht h5
  obtain ⟨out, hfull⟩ := redrawFull_squash sA m t now tb hl sb hmA ht hmisA
  have hred : sA.redraw now tb hl sb =
      .ok (out, some (sA.rowoff + sA.num_rows),
        { sA with message := none, message_is_shown := false }) := by
    rw [redraw_of_should sA now tb hl sb true hsm]
    rw [if_neg (by simp), hfull]
  have hr : s.refresh now tb hl sb =
      .ok (out,
        { sA with
            message := none
            message_is_shown := false
            dirty_start := some (sA.rowoff + sA.num_rows)
            cursor_moved := false }) := by
    simp only [Screen.refresh]
    rw [← hsA, hred]
  refine ⟨out, _, hr, ?_, rfl, rfl, ?_, ?_⟩
  · rw [draw_message_bar_shown sA m t now hmA ht]
  · simp [Screen.rows, hsA, do_scroll_num_rows]
  · simp only [Screen.rows]
    norm_num

/-- C4 witness: the shown message of `c4Screen` (painted at second 0) at a
refresh clock of 7 seconds, over the 3-row text model. -/
theorem squash_marks_revealed_row_witness :
    c4Screen.message = some c4Msg ∧ c4Msg.timestamp = some 0 ∧
    c4Screen.message_is_shown = true ∧ 5 < 7 - 0 ∧
    (∃ out s2, c4Screen.refresh 7 c3Tb c3Hl c3Sb = .ok (out, s2) ∧
      ((c4Screen.do_scroll c3Tb.rows c3Tb.cx c3Tb.cy).draw_message_bar 7).1 = [] ∧
      s2.message = none ∧
      s2.message_is_shown = false ∧
      s2.rows = c4Screen.num_rows + 1 ∧
      s2.dirty_start = some (s2.rowoff + s2.rows - 1)) :=
  ⟨rfl, rfl, rfl, by omega,
    squash_marks_revealed_row c4Screen c4Msg 0 7 c3Tb c3Hl c3Sb rfl rfl rfl
      (by omega)⟩

/-! ## C9 — `draw_rows` starts from and returns to the neutral attribute -/

theorem activeColor_color_cons (init c : Color) (l : List Out) :
    activeColor init (Out.color c :: l) = activeColor c l := rfl

theorem activeColor_append (c : Color) (a b : List Out) :
    activeColor c (a ++ b) = activeColor (activeColor c a) b := by
  induction a generalizing c with
  | nil => rfl
  | cons o rest ih =>
    cases o <;> simp [activeColor, ih]

theorem drawRowChars_active (s : Screen) (l : List (RChar × Color)) :
    ∀ col prev, activeColor prev (drawRowChars s l col prev).1 =
      (drawRowChars s l col prev).2 := by
  induction l with
  | nil =>
    intro col prev
    rfl
  | cons p rest ih =>
    obtain ⟨ch, hc⟩ := p
    intro col prev
    simp only [drawRowChars]
    by_cases h1 : col + ch.w ≤ s.coloff
    · rw [if_pos h1]
      exact ih _ prev
    · rw [if_neg h1]
      by_cases h2 : s.num_cols + s.coloff < col + ch.w
      · rw [if_pos h2]
        rfl
      · rw [if_neg h2]
        by_cases hcp : hc = prev
        · subst hcp
          rw [if_neg (by simp)]
          simpa [activeColor] using ih (col + ch.w) hc
        · rw [if_pos hcp]
          simpa [activeColor] using ih (col + ch.w) hc

theorem draw_welcome_active (s : Screen) (c : Color) :
    activeColor c s.draw_welcome_message = c := by
  simp only [Screen.draw_welcome_message]
  split_ifs <;> simp [activeColor, activeColor_append]

theorem drawRowAt_active (s : Screen) (ds : Nat) (rows : List Row)
    (hl : Highlighting) (y : Nat) (prev : Color) :
    activeColor prev (drawRowAt s ds rows hl y prev).1 =
      (drawRowAt s ds rows hl y prev).2 := by
  simp only [drawRowAt]
  by_cases h1 : y + s.rowoff < ds
  · rw [if_pos h1]
    rfl
  · rw [if_neg h1]
    by_cases h2 : rows.length ≤ y + s.rowoff
    · rw [if_pos h2]
      by_cases h3 : rows.isEmpty = true ∧ y = s.rows / 3
      · rw [if_pos h3]
        simp [activeColor, activeColor_append, draw_welcome_active]
      · rw [if_neg h3]
        by_cases h4 : prev ≠ Color.Reset
        · rw [if_pos h4]
          simp [activeColor, activeColor_append]
        · rw [if_neg h4]
          simp [activeColor, activeColor_append]
    · rw [if_neg h2]
      simp [activeColor, activeColor_append, drawRowChars_active]

theorem drawRowsGo_active (s : Screen) (ds : Nat) (rows : List Row)
    (hl : Highlighting) :
    ∀ n y prev, activeColor prev (drawRowsGo s ds rows hl y n prev).1 =
      (drawRowsGo s ds rows hl y n prev).2 := by
  intro n
  induction n with
  | zero =>
    intro y prev
    rfl
  | succ n ih =>
    intro y prev
    simp only [drawRowsGo]
    rw [activeColor_append, drawRowAt_active]
    exact ih (y + 1) _

/-- C9: `draw_rows` emits a `Reset` attribute item before painting any row,
and the attribute active after its whole output — starting from any
attribute state — is `Reset`: a trailing reset is emitted whenever a
non-neutral color is still active, so no color can leak into the status or
message bars. -/
theorem draw_rows_color_neutral (s : Screen) (ds : Nat) (rows : List Row)
    (hl : Highlighting) (c0 : Color) :
    (s.draw_rows ds rows hl).head? = some (Out.color Color.Reset) ∧
    activeColor c0 (s.draw_rows ds rows hl) = Color.Reset := by
  constructor
  · rfl
  · simp only [Screen.draw_rows]
    rw [activeColor_append, activeColor_color_cons, drawRowsGo_active]
    by_cases hp : (drawRowsGo s ds rows hl 0 s.rows Color.Reset).2 = Color.Reset
    · rw [if_neg (by simp [hp])]
      simpa [activeColor] using hp
    · rw [if_pos hp]
      rfl

/-! ## C3 — output of a second identical `refresh` -/

/-- Evaluation of `redrawFull` with no message-bar work and message state consistent with
the `message_is_shown` flag: no squash, no toggle, state unchanged. -/
theorem redrawFull_stable (s : Screen) (now : Nat) (tb : TextBuffer)
    (hl : Highlighting) (sb : StatusBar)
    (hshown : s.messageShown = s.message_is_shown) :
    ∃ out, s.redrawFull now tb hl sb false = (out, none, s) := by
  simp only [Screen.redrawFull]
  rw [if_neg (show ¬ (false : Bool) = true by simp)]
  dsimp only
  rw [hshown]
  rw [if_neg (show ¬ (s.message_is_shown = true ∧ s.message_is_shown = false) by
    cases hb : s.message_is_shown <;> simp [hb])]
  exact ⟨_, rfl⟩

/-- A `refresh` whose message-bar check is negative and whose message state
is consistent leaves exactly the scrolled state with a cleared dirty mark
and a cleared `cursor_moved` flag. -/
theorem refresh_stable_state (s : Screen) (now : Nat) (tb : TextBuffer)
    (hl : Highlighting) (sb : StatusBar)
    (hcons : s.message_is_shown = s.messageShown)
    (hmsg : s.should_redraw_message_bar now = .ok false) :
    ∃ o1, s.refresh now tb hl sb =
      .ok (o1, { s.do_scroll tb.rows tb.cx tb.cy with
                   dirty_start := none
                   cursor_moved := false }) := by
  set sA := s.do_scroll tb.rows tb.cx tb.cy with hsA
  have hmsgA : sA.should_redraw_message_bar now = .ok false := by
    unfold Screen.should_redraw_message_bar at hmsg ⊢
    rw [hsA, do_scroll_message]
    exact hmsg
  have hshA : sA.messageShown = sA.message_is_shown := by
    unfold Screen.messageShown at hcons ⊢
    rw [hsA, do_scroll_message, do_scroll_mis]
    exact hcons.symm
  have hred := redraw_of_should sA now tb hl sb false hmsgA
  by_cases hcond : sA.dirty_start = none ∧ sb.redraw = false ∧
      (false : Bool) = false
  · rw [if_pos hcond] at hred
    by_cases hcm : sA.cursor_moved = true
    · rw [if_pos hcm] at hred
      refine ⟨[Out.moveToRC (tb.cy - sA.rowoff + 1) (sA.rx - sA.coloff + 1)], ?_⟩
      simp only [Screen.refresh]
      rw [← hsA, hred]
    · rw [if_neg hcm] at hred
      refine ⟨[], ?_⟩
      simp only [Screen.refresh]
      rw [← hsA, hred]
  · rw [if_neg hcond] at hred
    obtain ⟨out, hfull⟩ := redrawFull_stable sA now tb hl sb hshA
    rw [hfull] at hred
    refine ⟨out, ?_⟩
    simp only [Screen.refresh]
    rw [← hsA, hred]

/-- C3 (amended): two identical `refresh` calls (same model, same clock, no
status-bar redraw flag) produce no output on the second call, provided
additionally that the message bar needs no processing at that clock (no
pending message, no expiry) and the `message_is_shown` flag agrees with the
message state.  (Without the extra message conditions the claim fails; see
the counterexample.) -/
theorem refresh_idle_second_amended (s : Screen) (now : Nat) (tb : TextBuffer)
    (hl : Highlighting) (sb : StatusBar)
    (hc : 1 ≤ s.num_cols) (hr : 1 ≤ s.num_rows)
    (hsb : sb.redraw = false)
    (hcons : s.message_is_shown = s.messageShown)
    (hmsg : s.should_redraw_message_bar now = .ok false) :
    ∃ o1 s1, s.refresh now tb hl sb = .ok (o1, s1) ∧
      ∃ s2, s1.refresh now tb hl sb = .ok ([], s2) := by
  obtain ⟨o1, h1⟩ := refresh_stable_state s now tb hl sb hcons hmsg
  set sA := s.do_scroll tb.rows tb.cx tb.cy with hsA
  set s1 : Screen :=
    { sA with dirty_start := none, cursor_moved := false } with hs1
  refine ⟨o1, s1, h1, ?_⟩
  have hcont := do_scroll_viewport_amended s tb.rows tb.cx tb.cy hc hr
  rw [← hsA] at hcont
  have hscroll2 : s1.do_scroll tb.rows tb.cx tb.cy = s1 := by
    apply do_scroll_noop
    · show scrollRx tb.rows tb.cx tb.cy = sA.rx
      rw [hsA, do_scroll_rx]
    · exact hcont.1.1
    · exact hcont.1.2
    · exact hcont.2.1.1
    · exact hcont.2.1.2
  have hmsg1 : s1.should_redraw_message_bar now = .ok false := by
    unfold Screen.should_redraw_message_bar at hmsg ⊢
    show shouldRedrawMsg sA.message now = _
    rw [hsA, do_scroll_message]
    exact hmsg
  have hred2 := redraw_of_should s1 now tb hl sb false hmsg1
  rw [if_pos ⟨rfl, hsb, rfl⟩] at hred2
  rw [if_neg (show ¬ s1.cursor_moved = true by rw [hs1]; simp)] at hred2
  refine ⟨s1, ?_⟩
  simp only [Screen.refresh]
  rw [hscroll2, hred2]

/-- C3 counterexample: a pending message and the cursor on the last
currently visible text row.  The first refresh paints the message, which
shrinks the effective viewport; the second identical refresh (same model,
same clock, `redraw` flag off, cursor unmoved) must scroll and therefore
writes output — the claim that it "produces no output bytes" is false. -/
theorem refresh_second_output_cex :
    (refreshTwiceSnd c3Screen 0 c3Tb c3Hl c3Sb).isSome = true ∧
    refreshTwiceSnd c3Screen 0 c3Tb c3Hl c3Sb ≠ some [] := by
  decide

/-- C3 witness: the amended theorem at a concrete message-free screen. -/
theorem refresh_idle_second_amended_witness :
    (1 ≤ c3wScreen.num_cols ∧ 1 ≤ c3wScreen.num_rows ∧ c3Sb.redraw = false) ∧
    (∃ o1 s1, c3wScreen.refresh 0 c3Tb c3Hl c3Sb = .ok (o1, s1) ∧
      ∃ s2, s1.refresh 0 c3Tb c3Hl c3Sb = .ok ([], s2)) :=
  ⟨⟨by decide, by decide, rfl⟩,
    refresh_idle_second_amended c3wScreen 0 c3Tb c3Hl c3Sb (by decide)
      (by decide) rfl rfl rfl⟩

end Kiro
